import Mathlib

/-!
Verification of the content-filtering core of `sovereign-browser`
(`src-tauri/src/adblock_manager.rs` and the ad-blocking commands of
`src-tauri/src/main.rs`), as a shallow embedding.

Modelling conventions:
* `SystemTime` is modelled as `Nat` (seconds); the clock value read by
  `SystemTime::now()` is passed explicitly as a `now` parameter.
* The external `adblock` crate (compiled `Engine`, `Request::new`,
  `FilterSet` compilation, Safari conversion) and `serde_json` are external
  dependencies: their behaviour is abstracted into an `Env` record of
  functions, and an `Engine` is abstracted by its two query surfaces used
  by the code (`check_network_request(..).matched` and
  `url_cosmetic_resources(..).hide_selectors`).
* The external `url` crate call `Url::parse(s).ok()?.domain()` is modelled
  concretely by `url_domain_model`, which returns the full lower-cased host
  of an http/https URL when that host is a domain name (not an IP literal),
  mirroring the url crate's documented behaviour.
* Disk writes are modelled as a trace of `FsOp` events.  The source only
  ever calls `std::fs::write` (an in-place create/truncate write), which is
  the `FsOp.write` constructor; a temp-file-then-rename sequence would be
  `FsOp.tempReplace`, which no modelled code path emits.
* Early `return`s in the Rust code are folded into boolean/match
  expressions; each definition cites the source lines it embeds.
-/

namespace SovereignBrowser

/-- Enum `RuleExpiry` (adblock_manager.rs lines 32-36): expiry policy of an
allowlist entry; `Until` holds a `SystemTime`, modelled in seconds. -/
inductive RuleExpiry where
  | Forever : RuleExpiry
  | Until : Nat → RuleExpiry
deriving DecidableEq, Repr

/-- Abstraction of the external `adblock::engine::Engine`: the two queries
the repository code performs on an engine. -/
structure Engine where
  /-- `engine.check_network_request(&req).matched`, on the request built
  from `(url, source_url, request_type)`. -/
  matched : String → String → String → Bool
  /-- `engine.url_cosmetic_resources(url).hide_selectors`. -/
  hide_selectors : String → List String
deriving Inhabited

/-- A declarative Safari content-blocking rule object
(`trigger.url-filter`, optional `trigger.if-domain`, `action.type`). -/
structure SafariRule where
  url_filter : String
  if_domain : Option (List String)
  action_type : String
deriving DecidableEq, Repr

/-- One filesystem operation performed by the code.  The source writes
files with `std::fs::write(path, data)`, an in-place create/truncate
write (`FsOp.write`); an atomic temp-file-then-rename replacement would
be `FsOp.tempReplace`, which the source never performs. -/
inductive FsOp where
  | write : String → String → FsOp
  | tempReplace : String → String → FsOp
deriving DecidableEq, Repr

/-- Whether an `FsOp` is a temp-file-then-replace (atomic) write. -/
def FsOp.isTempReplace : FsOp → Bool
  | FsOp.write _ _ => false
  | FsOp.tempReplace _ _ => true

/-- External-library behaviour the embedded code calls into. -/
structure Env where
  /-- Whether `adblock::request::Request::new(url, source_url, request_type)`
  succeeds (`.ok()` is `Some`). -/
  request_ok : String → String → String → Bool
  /-- `Engine::from_filter_set(filter_set, true)`, as a function of the
  filter lines accumulated in the `FilterSet`. -/
  from_filter_set : List String → Engine
  /-- `engine.serialize()` of the freshly built engine, as a function of
  the filter lines it was compiled from. -/
  serialize_engine : List String → String
  /-- `filter_set.into_content_blocking()`: `some (rules, skipped)` on
  `Ok`, `none` on `Err`, as a function of the filter lines. -/
  into_content_blocking : List String → Option (List SafariRule × List String)
  /-- `serde_json::to_string` of a Safari rule array (the serde value
  round-trip in the source is total on its own output). -/
  serialize_rules : List SafariRule → String
  /-- `serde_json::to_string_pretty` of the allowlist map. -/
  serialize_allowlist : List (String × RuleExpiry) → String

/-- In-memory state of `AdBlockManager` (adblock_manager.rs lines 38-46):
the `ArcSwap<Engine>` cell, the `DashMap` allowlist (modelled as an
association list with unique keys), and the cached Safari rules JSON. -/
structure ManagerState where
  engine : Engine
  allowlist : List (String × RuleExpiry)
  safari_rules_json : String

/- File-name constants (adblock_manager.rs lines 14-16). -/

def ENGINE_CACHE_FILE : String := "adblock_engine.bin"

def SAFARI_CACHE_FILE : String := "safari_rules.json"

def ALLOWLIST_FILE : String := "adblock_allowlist.json"

/-- Constant `CUSTOM_EXCEPTION_RULES` (adblock_manager.rs lines 21-30): fixed
in-process webmail exception filter lines. -/
def CUSTOM_EXCEPTION_RULES : List String :=
  ["@@||google.com^$domain=mail.google.com|gmail.com",
   "@@||gstatic.com^$domain=mail.google.com|gmail.com",
   "@@||googleusercontent.com^$domain=mail.google.com|gmail.com",
   "@@||googleapis.com^$domain=mail.google.com|gmail.com",
   "@@||ggpht.com^$domain=mail.google.com|gmail.com"]

/-- Splitting a character list at every occurrence of `sep`; always
returns at least one (possibly empty) segment, like Rust's and Lean's
string `split`. -/
def splitOnChar (sep : Char) : List Char → List (List Char)
  | [] => [[]]
  | x :: xs =>
    match splitOnChar sep xs with
    | [] => if x = sep then [[], []] else [[x]]
    | y :: ys => if x = sep then [] :: y :: ys else (x :: y) :: ys

/-- Boolean list-prefix test, by structural recursion so that concrete
instances reduce in the kernel. -/
def leadsWith : List Char → List Char → Bool
  | [], _ => true
  | _ :: _, [] => false
  | x :: xs, y :: ys => x = y && leadsWith xs ys

/-- Boolean list-suffix test. -/
def trailsWith (pat s : List Char) : Bool :=
  leadsWith pat.reverse s.reverse

/-- Model of the external `url` crate call
`Url::parse(s).ok().and_then(|u| u.domain().map(str::to_string))` for the
http/https URLs the browser passes: strips the scheme, takes the
authority up to `/`, `?` or `#`, drops userinfo and port, lower-cases the
host, and yields `none` for other schemes, empty hosts and IP literals
(the url crate's `domain()` is `None` exactly when the host is not a
domain name). -/
def url_domain_model (s : String) : Option String :=
  let chars := s.data
  let rest :=
    if leadsWith "https://".data chars then some (chars.drop 8)
    else if leadsWith "http://".data chars then some (chars.drop 7)
    else none
  match rest with
  | none => none
  | some r =>
    let authority := r.takeWhile (fun c => !(c = '/' || c = '?' || c = '#'))
    let hostPort := (splitOnChar '@' authority).getLastD authority
    let host := hostPort.takeWhile (fun c => !(c = ':'))
    if host.isEmpty then none
    else if host.headD ' ' = '[' then none
    else if host.all (fun c => c.isDigit || c = '.') then none
    else some (String.mk (host.map Char.toLower))

/-- Function `AdBlockManager::extract_domain` (adblock_manager.rs lines 317-319):
`url::Url::parse(url).ok()?.domain().map(|d| d.to_string())`. -/
def extract_domain (url : String) : Option String :=
  url_domain_model url

/-- Function `AdBlockManager::is_webmail_domain` (adblock_manager.rs lines
323-336): parses the URL and compares its domain against the Gmail
domains. -/
def is_webmail_domain (url : String) : Bool :=
  match url_domain_model url with
  | some domain =>
      domain == "mail.google.com" || trailsWith ".mail.google.com".data domain.data
        || domain == "gmail.com" || trailsWith ".gmail.com".data domain.data
  | none => false

/-- Whether an allowlist entry is active at time `now`
(`Forever`, or `Until t` with `now < t` strictly): the test both
`should_block_request` (lines 233-236) and `is_exception` (lines
294-297) perform on a found entry. -/
def active_at (now : Nat) : RuleExpiry → Bool
  | RuleExpiry.Forever => true
  | RuleExpiry.Until t => decide (now < t)

/-- The allowlist-consultation step shared verbatim by
`should_block_request` (adblock_manager.rs lines 231-238) and
`is_exception` (lines 291-301): extract the domain of `url`, look it up
in the `DashMap`, and test the entry's expiry against `now`. -/
def allow_hit (st : ManagerState) (now : Nat) (url : String) : Bool :=
  match extract_domain url with
  | some domain =>
    match st.allowlist.lookup domain with
    | some e => active_at now e
    | none => false
  | none => false

/-- Function `AdBlockManager::is_exception` (adblock_manager.rs lines 291-301). -/
def is_exception (st : ManagerState) (now : Nat) (url : String) : Bool :=
  allow_hit st now url

/-- The engine phase of `should_block_request` (adblock_manager.rs lines
240-248): build the request with `Request::new(..).ok()`; on `Some` ask
the engine snapshot, on `None` return `false`. -/
def engine_check (env : Env) (st : ManagerState)
    (url source_url request_type : String) : Bool :=
  if env.request_ok url source_url request_type then
    st.engine.matched url source_url request_type
  else
    false

/-- Function `AdBlockManager::should_block_request` (adblock_manager.rs lines
229-249): an active allowlist entry for the initiator's extracted domain
returns `false` early; otherwise the engine snapshot decides. -/
def should_block_request (env : Env) (st : ManagerState) (now : Nat)
    (url source_url request_type : String) : Bool :=
  if allow_hit st now source_url then false
  else engine_check env st url source_url request_type

/-- Function `AdBlockManager::get_cosmetic_css` (adblock_manager.rs lines
255-271): empty for allowlisted or webmail domains, otherwise the loop
appending `selector` + a hiding declaration + a newline for each hide
selector of the engine snapshot. -/
def get_cosmetic_css (st : ManagerState) (now : Nat) (url : String) : String :=
  if is_exception st now url || is_webmail_domain url then ""
  else
    (st.engine.hide_selectors url).foldl
      (fun css selector => css ++ selector ++ " \x7b display: none !important; \x7d\n") ""

/-- Function `AdBlockManager::get_exceptions` (adblock_manager.rs lines 303-307):
returns every stored `(domain, expiry)` pair, with no expiry filtering. -/
def get_exceptions (st : ManagerState) : List (String × RuleExpiry) :=
  st.allowlist

/-- Function `AdBlockManager::save_allowlist` (adblock_manager.rs lines 309-315):
one `fs::write` of the whole serialized table, result ignored. -/
def save_allowlist (env : Env) (st : ManagerState) : FsOp :=
  FsOp.write ALLOWLIST_FILE (env.serialize_allowlist st.allowlist)

/-- Model of `DashMap::insert`: map semantics, the new binding replaces any
existing binding of the same key. -/
def insert_allow (k : String) (v : RuleExpiry)
    (l : List (String × RuleExpiry)) : List (String × RuleExpiry) :=
  (k, v) :: l.filter (fun p => !(p.1 == k))

/-- Model of `DashMap::remove`: drops the binding of `k`. -/
def remove_allow (k : String)
    (l : List (String × RuleExpiry)) : List (String × RuleExpiry) :=
  l.filter (fun p => !(p.1 == k))

/-- Function `AdBlockManager::add_exception` (adblock_manager.rs lines 275-283):
insert `Forever` (no duration) or `Until(now + d)`, then synchronously
`save_allowlist` before returning.  Returns the new state and the trace
of disk writes. -/
def add_exception (env : Env) (st : ManagerState) (domain : String)
    (duration : Option Nat) (now : Nat) : ManagerState × List FsOp :=
  let expiry := match duration with
    | some d => RuleExpiry.Until (now + d)
    | none => RuleExpiry.Forever
  let st1 := { st with allowlist := insert_allow domain expiry st.allowlist }
  (st1, [save_allowlist env st1])

/-- Function `AdBlockManager::remove_exception` (adblock_manager.rs lines
285-289): remove the entry, then synchronously `save_allowlist`. -/
def remove_exception (env : Env) (st : ManagerState)
    (domain : String) : ManagerState × List FsOp :=
  let st1 := { st with allowlist := remove_allow domain st.allowlist }
  (st1, [save_allowlist env st1])

/-- Command `set_site_exception` (main.rs lines 130-151): parse the URL with the
url crate, take its domain, and dispatch on the duration class
(`1hour` = 3600 s, `24hours` = 86400 s, `forever`, `off` = remove;
anything else, or an unparseable URL, does nothing). -/
def set_site_exception (env : Env) (st : ManagerState) (url : String)
    (duration_type : String) (now : Nat) : ManagerState × List FsOp :=
  match url_domain_model url with
  | some domain =>
    if duration_type == "1hour" then add_exception env st domain (some 3600) now
    else if duration_type == "24hours" then add_exception env st domain (some 86400) now
    else if duration_type == "forever" then add_exception env st domain none now
    else if duration_type == "off" then remove_exception env st domain
    else (st, [])
  | none => (st, [])

/-- A carriage return at the end of a `\n`-terminated segment belongs to
a `\r\n` line ending and is stripped by Rust's `str::lines()`. -/
def stripCR (l : List Char) : List Char :=
  if l.getLast? = some '\x0d' then l.dropLast else l

/-- Rust's `str::lines()`: split at `\n`; the final segment is dropped
when empty (trailing newline) and kept verbatim otherwise, and every
`\n`-terminated segment has a trailing `\r` stripped; the empty string
has no lines. -/
def rustLines (s : String) : List String :=
  let parts := splitOnChar '\n' s.data
  let kept :=
    match parts.getLast? with
    | some [] => parts.dropLast.map stripCR
    | some last => parts.dropLast.map stripCR ++ [last]
    | none => []
  kept.map String.mk

/-- The two configured remote filter-list sources
(adblock_manager.rs lines 12-13 and 114). -/
def sourceUrls : List String :=
  ["https://easylist.to/easylist/easylist.txt",
   "https://easylist.to/easylist/easyprivacy.txt"]

/-- The fetch loop of `update_rules` (adblock_manager.rs lines 118-129):
for each source URL, the lines of the fetched text when both the request
and the body read succeed, nothing otherwise.  `fetch u = none` models a
failure of either step for source `u`. -/
def fetched_lines (fetch : String → Option String) : List String :=
  (sourceUrls.map (fun u =>
    match fetch u with
    | some text => rustLines text
    | none => [])).flatten

/-- Counter `lines_count` after the fetch loop (adblock_manager.rs lines 116,
124): the total number of filter lines obtained from all sources. -/
def lines_count (fetch : String → Option String) : Nat :=
  (fetched_lines fetch).length

/-- The filter lines held by the `FilterSet` when compilation starts
(adblock_manager.rs lines 125 and 138): all fetched lines plus the
injected `CUSTOM_EXCEPTION_RULES`. -/
def pipeline_filter_lines (fetch : String → Option String) : List String :=
  fetched_lines fetch ++ CUSTOM_EXCEPTION_RULES

/-- Constant `gmail_domains` (adblock_manager.rs line 167): the `if-domain`
constraint of every synthesized Safari exception rule. -/
def gmail_domains : List String := ["*mail.google.com", "*gmail.com"]

/-- Constant `whitelisted_domains` (adblock_manager.rs lines 168-171). -/
def whitelisted_domains : List String :=
  ["google.com", "gstatic.com", "googleusercontent.com",
   "googleapis.com", "ggpht.com"]

/-- Model of `whitelisted.replace(".", "\\.")` (adblock_manager.rs line 179):
each dot of the domain is escaped for the regex pattern. -/
def escape_dots : List Char → List Char
  | [] => []
  | c :: cs =>
    if c = '.' then '\\' :: '.' :: escape_dots cs else c :: escape_dots cs

/-- The anchored `url-filter` pattern synthesized for a whitelisted
domain (adblock_manager.rs lines 177-184). -/
def anchored_url_pattern (w : String) : String :=
  if w.data.contains '.' then
    "^https?://([^/]*\\.)?" ++ String.mk (escape_dots w.data) ++ "(/|$)"
  else
    "^https?://" ++ w ++ "(/|$)"

/-- The Safari allow-rules synthesized by the pipeline, one per
whitelisted domain (adblock_manager.rs lines 173-197). -/
def safari_exception_rules : List SafariRule :=
  whitelisted_domains.map (fun w =>
    { url_filter := anchored_url_pattern w,
      if_domain := some gmail_domains,
      action_type := "allow" })

/-- Function `AdBlockManager::update_rules` (adblock_manager.rs lines 111-215) as
a function of the fetch outcomes, returning the new state and the trace
of disk writes.  If zero filter lines were obtained, the run aborts
before compilation (lines 131-134).  Otherwise the custom exception
rules are injected, the Rust engine is built, written to cache and
published (lines 136-151); on macOS (`macos = true`) the Safari rules
are converted, extended with the synthesized exception rules, serialized,
written to cache and published (lines 154-212). -/
def update_rules (env : Env) (fetch : String → Option String)
    (st : ManagerState) (macos : Bool) : ManagerState × List FsOp :=
  if lines_count fetch = 0 then (st, [])
  else
    let filterLines := pipeline_filter_lines fetch
    let newEngine := env.from_filter_set filterLines
    let st1 := { st with engine := newEngine }
    let ops1 := [FsOp.write ENGINE_CACHE_FILE (env.serialize_engine filterLines)]
    if macos then
      match env.into_content_blocking filterLines with
      | some (rules, _skipped) =>
        let finalRules := rules ++ safari_exception_rules
        let finalJson := env.serialize_rules finalRules
        ({ st1 with safari_rules_json := finalJson },
         ops1 ++ [FsOp.write SAFARI_CACHE_FILE finalJson])
      | none => (st1, ops1)
    else (st1, ops1)

/-- Dots interleaved between host labels (inverse of splitting at `.`). -/
def joinDots : List (List Char) → List Char
  | [] => []
  | [l] => l
  | l :: ls => l ++ '.' :: joinDots ls

/-- A small sample of the public-suffix list, sufficient for the hosts
at issue in the development.  Spec-side notion only. -/
def public_suffixes : List String :=
  ["com", "org", "net", "io", "uk", "co.uk"]

/-- The registrable-domain labels: one label more than the longest
public suffix of the label list, `none` when the host itself is a public
suffix or no suffix matches. -/
def registrableLabels : List (List Char) → Option (List (List Char))
  | [] => none
  | x :: xs =>
    if decide (String.mk (joinDots (x :: xs)) ∈ public_suffixes) then none
    else if decide (String.mk (joinDots xs) ∈ public_suffixes) then some (x :: xs)
    else registrableLabels xs

/-- Modelled from the spec for comparison with the code (claim C5):
the "effective registrable domain" (public suffix plus one label) of a
host, the key the spec says the allowlist uses.  The code's own key
derivation is `extract_domain`. -/
def registrable_domain (host : String) : Option String :=
  match registrableLabels (splitOnChar '.' host.data) with
  | some ls => some (String.mk (joinDots ls))
  | none => none

/- Concrete fixtures used by witnesses and counterexamples. -/

/-- An engine that blocks every parseable request and hides `div`
everywhere: exercises "regardless of Engine content". -/
def engineAll : Engine :=
  { matched := fun _ _ _ => true, hide_selectors := fun _ => ["div"] }

/-- A concrete environment: every request parses, compilation and
serialization are trivial total functions. -/
def envBlockAll : Env :=
  { request_ok := fun _ _ _ => true,
    from_filter_set := fun _ => engineAll,
    serialize_engine := fun _ => "",
    into_content_blocking := fun _ => some ([], []),
    serialize_rules := fun _ => "",
    serialize_allowlist := fun _ => "" }

/-- A concrete environment in which no request parses. -/
def envNoParse : Env :=
  { envBlockAll with request_ok := fun _ _ _ => false }

/-- Manager state with an empty allowlist. -/
def dst0 : ManagerState :=
  { engine := engineAll, allowlist := [], safari_rules_json := "[]" }

/-- Manager state with a `Forever` entry for `example.com`. -/
def stForever : ManagerState :=
  { engine := engineAll,
    allowlist := [("example.com", RuleExpiry.Forever)],
    safari_rules_json := "[]" }

/-- Manager state with an `Until 10` entry for `example.com`. -/
def stUntil : ManagerState :=
  { engine := engineAll,
    allowlist := [("example.com", RuleExpiry.Until 10)],
    safari_rules_json := "[]" }

/-- Manager state with a `Forever` entry for `google.com` (the
registrable domain of `mail.google.com`). -/
def stGoogle : ManagerState :=
  { engine := engineAll,
    allowlist := [("google.com", RuleExpiry.Forever)],
    safari_rules_json := "[]" }

/-- Manager state with a `Forever` entry for `mail.google.com`. -/
def stMailGoogle : ManagerState :=
  { engine := engineAll,
    allowlist := [("mail.google.com", RuleExpiry.Forever)],
    safari_rules_json := "[]" }

/-- Manager state with an `Until 10` entry for `news.example`. -/
def stNews : ManagerState :=
  { engine := engineAll,
    allowlist := [("news.example", RuleExpiry.Until 10)],
    safari_rules_json := "[]" }

/-- The state with the allowlist binding of `D` dropped: the comparison
point for expiry semantics. -/
def erase_domain (st : ManagerState) (D : String) : ManagerState :=
  { st with allowlist := remove_allow D st.allowlist }

/- Helper lemmas. -/

/-- Looking up a key other than the erased one is unaffected by the
erasure. -/
theorem lookup_remove_allow_ne (k D : String)
    (l : List (String × RuleExpiry)) (h : k ≠ D) :
    (remove_allow D l).lookup k = l.lookup k := by
  induction l with
  | nil => rfl
  | cons a t ih =>
    obtain ⟨a1, a2⟩ := a
    by_cases hD : a1 = D
    · subst hD
      have hk : (k == a1) = false := beq_eq_false_iff_ne.mpr h
      simp [remove_allow, List.filter, List.lookup, hk, remove_allow] at ih ⊢
      exact ih
    · have hD' : (a1 == D) = false := beq_eq_false_iff_ne.mpr hD
      simp [remove_allow, List.filter, List.lookup, hD'] at ih ⊢
      cases hk : (k == a1) with
      | true => rfl
      | false => exact ih

/-- Looking up the erased key yields `none`. -/
theorem lookup_remove_allow_self (D : String)
    (l : List (String × RuleExpiry)) :
    (remove_allow D l).lookup D = none := by
  induction l with
  | nil => rfl
  | cons a t ih =>
    obtain ⟨a1, a2⟩ := a
    by_cases hD : a1 = D
    · subst hD
      simp [remove_allow, List.filter, List.lookup] at ih ⊢
      exact ih
    · have hD' : (a1 == D) = false := beq_eq_false_iff_ne.mpr hD
      have hk : (D == a1) = false := beq_eq_false_iff_ne.mpr (Ne.symm hD)
      simp [remove_allow, List.filter, List.lookup, hD', hk] at ih ⊢
      exact ih

/-- A successful association-list lookup exhibits a member. -/
theorem mem_of_lookup_some {l : List (String × RuleExpiry)}
    {k : String} {v : RuleExpiry} (h : l.lookup k = some v) : (k, v) ∈ l := by
  induction l with
  | nil => simp [List.lookup] at h
  | cons a t ih =>
    obtain ⟨a1, a2⟩ := a
    cases hk : (k == a1) with
    | true =>
      have hk' : k = a1 := beq_iff_eq.mp hk
      simp [List.lookup, hk] at h
      subst hk' h
      exact List.mem_cons_self _ _
    | false =>
      simp [List.lookup, hk] at h
      exact List.mem_cons_of_mem _ (ih h)

/-- A URL whose extracted domain holds an active allowlist entry hits
the allowlist check. -/
theorem allow_hit_of_active {st : ManagerState} {now : Nat} {u D : String}
    {e : RuleExpiry} (hu : extract_domain u = some D)
    (hfind : st.allowlist.lookup D = some e)
    (hactive : active_at now e = true) : allow_hit st now u = true := by
  unfold allow_hit
  rw [hu]
  simp only [hfind]
  exact hactive

/-- C1: for every domain `D` with an allowlist entry active at the
current time (`Forever`, or `Until t` with `now < t`),
`should_block_request url initiator ty` is `false` for every `url` and
resource type whenever the initiator's extracted domain is `D`, and
`get_cosmetic_css` of any URL whose domain is `D` is the empty string —
for every state, hence regardless of the Engine's content. -/
theorem active_allowlist_overrides_engine
    (env : Env) (st : ManagerState) (now : Nat) (D : String) (e : RuleExpiry)
    (hfind : st.allowlist.lookup D = some e) (hactive : active_at now e = true) :
    (∀ url src ty, extract_domain src = some D →
      should_block_request env st now url src ty = false) ∧
    (∀ url, extract_domain url = some D → get_cosmetic_css st now url = "") := by
  constructor
  · intro url src ty hsrc
    unfold should_block_request
    rw [allow_hit_of_active hsrc hfind hactive]
    rfl
  · intro url hurl
    unfold get_cosmetic_css is_exception
    rw [allow_hit_of_active hurl hfind hactive]
    rfl

/-- C1 witness: with `example.com` allowlisted `Forever` and an engine
that blocks everything and hides `div` everywhere, a request initiated
from `https://example.com/` is not blocked and the page gets no hiding
CSS. -/
theorem active_allowlist_overrides_engine_witness :
    stForever.allowlist.lookup "example.com" = some RuleExpiry.Forever ∧
    active_at 5 RuleExpiry.Forever = true ∧
    should_block_request envBlockAll stForever 5
      "https://ads.com/a.js" "https://example.com/" "script" = false ∧
    get_cosmetic_css stForever 5 "https://example.com/" = "" :=
  ⟨rfl, rfl,
   (active_allowlist_overrides_engine envBlockAll stForever 5
      "example.com" RuleExpiry.Forever rfl rfl).1
      "https://ads.com/a.js" "https://example.com/" "script" (by decide),
   (active_allowlist_overrides_engine envBlockAll stForever 5
      "example.com" RuleExpiry.Forever rfl rfl).2
      "https://example.com/" (by decide)⟩

/-- C2 counterexample: at time 20 the `Until 10` entry for
`example.com` is expired, yet `get_exceptions` still lists it, so the
reader `get_exceptions` does not behave as if the entry were absent. -/
theorem expired_entry_still_listed :
    active_at 20 (RuleExpiry.Until 10) = false ∧
    get_exceptions stUntil = [("example.com", RuleExpiry.Until 10)] ∧
    get_exceptions (erase_domain stUntil "example.com") = [] ∧
    get_exceptions stUntil ≠ get_exceptions (erase_domain stUntil "example.com") := by
  decide

/-- C2 amended: an expired `Until t` entry for `D` is treated as absent
by the query readers `should_block_request`, `is_exception` and
`get_cosmetic_css` — each behaves exactly as on the state with `D`'s
entry erased — but `get_exceptions` still returns the expired entry in
its listing. -/
theorem expired_entry_absent_for_queries
    (env : Env) (st : ManagerState) (D : String) (t now : Nat)
    (hfind : st.allowlist.lookup D = some (RuleExpiry.Until t))
    (hexp : t ≤ now) :
    (∀ url src ty, should_block_request env st now url src ty
        = should_block_request env (erase_domain st D) now url src ty) ∧
    (∀ url, is_exception st now url
        = is_exception (erase_domain st D) now url) ∧
    (∀ url, get_cosmetic_css st now url
        = get_cosmetic_css (erase_domain st D) now url) ∧
    (D, RuleExpiry.Until t) ∈ get_exceptions st := by
  have hhit : ∀ u, allow_hit st now u = allow_hit (erase_domain st D) now u := by
    intro u
    unfold allow_hit erase_domain
    cases hu : extract_domain u with
    | none => rfl
    | some d =>
      by_cases hd : d = D
      · subst hd
        simp only [hfind, lookup_remove_allow_self]
        unfold active_at
        simp [Nat.not_lt.mpr hexp]
      · simp only [lookup_remove_allow_ne d D st.allowlist hd]
  refine ⟨?_, ?_, ?_, mem_of_lookup_some hfind⟩
  · intro url src ty
    unfold should_block_request engine_check
    rw [hhit src]
    rfl
  · intro url
    unfold is_exception
    exact hhit url
  · intro url
    unfold get_cosmetic_css is_exception
    rw [hhit url]
    rfl

/-- C2 witness: concrete instantiation at the expired entry
`("example.com", Until 10)` and time 20. -/
theorem expired_entry_absent_for_queries_witness :
    stUntil.allowlist.lookup "example.com" = some (RuleExpiry.Until 10) ∧
    10 ≤ 20 ∧
    should_block_request envBlockAll stUntil 20
        "https://ads.com/a.js" "https://example.com/" "script"
      = should_block_request envBlockAll (erase_domain stUntil "example.com") 20
        "https://ads.com/a.js" "https://example.com/" "script" ∧
    is_exception stUntil 20 "https://example.com/"
      = is_exception (erase_domain stUntil "example.com") 20 "https://example.com/" ∧
    get_cosmetic_css stUntil 20 "https://example.com/"
      = get_cosmetic_css (erase_domain stUntil "example.com") 20 "https://example.com/" ∧
    ("example.com", RuleExpiry.Until 10) ∈ get_exceptions stUntil :=
  ⟨rfl, by decide,
   (expired_entry_absent_for_queries envBlockAll stUntil "example.com" 10 20
      rfl (by decide)).1 "https://ads.com/a.js" "https://example.com/" "script",
   (expired_entry_absent_for_queries envBlockAll stUntil "example.com" 10 20
      rfl (by decide)).2.1 "https://example.com/",
   (expired_entry_absent_for_queries envBlockAll stUntil "example.com" 10 20
      rfl (by decide)).2.2.1 "https://example.com/",
   (expired_entry_absent_for_queries envBlockAll stUntil "example.com" 10 20
      rfl (by decide)).2.2.2⟩

/-- C3: when a pipeline run obtains zero total filter lines from all
remote sources, the run aborts before compilation: the state after the
run (Engine in the store and Safari rules JSON in memory) is the state
before it, and no disk write is performed, so the on-disk caches are
also untouched; the model is a total function, so no panic occurs. -/
theorem empty_fetch_preserves_state
    (env : Env) (fetch : String → Option String) (st : ManagerState)
    (macos : Bool) (h : lines_count fetch = 0) :
    update_rules env fetch st macos = (st, []) := by
  unfold update_rules
  rw [h]
  rfl

/-- C3 witness: a run in which both fetches fail changes nothing. -/
theorem empty_fetch_preserves_state_witness :
    lines_count (fun _ => none) = 0 ∧
    update_rules envBlockAll (fun _ => none) dst0 true = (dst0, []) :=
  ⟨rfl, empty_fetch_preserves_state envBlockAll (fun _ => none) dst0 true rfl⟩

/-- C4: when the request cannot be parsed (the adblock crate's
`Request::new(url, source_url, request_type)` fails, which is how a
malformed `url`/`initiator_url` surfaces at this boundary),
`should_block_request` returns `false` — the request is not blocked —
and, the model being a total function, no panic occurs and no error is
propagated. -/
theorem unparseable_request_fails_open
    (env : Env) (st : ManagerState) (now : Nat) (url src ty : String)
    (h : env.request_ok url src ty = false) :
    should_block_request env st now url src ty = false := by
  unfold should_block_request engine_check
  rw [h]
  cases allow_hit st now src <;> rfl

/-- C4 witness: with the non-URL strings `%%%` and an engine that blocks
every parseable request, the call still returns `false`. -/
theorem unparseable_request_fails_open_witness :
    envNoParse.request_ok "%%%" "%%%" "script" = false ∧
    should_block_request envNoParse dst0 0 "%%%" "%%%" "script" = false :=
  ⟨rfl, unparseable_request_fails_open envNoParse dst0 0 "%%%" "%%%" "script" rfl⟩

/-- C5 counterexample: for `https://mail.google.com/inbox` the key
inserted by `set_site_exception` and looked up by
`should_block_request` is the full host `mail.google.com`, while the
effective registrable domain of that URL is `google.com`; with
`google.com` (the registrable domain) allowlisted `Forever`, a request
initiated from `https://mail.google.com/inbox` is still evaluated by
the engine and blocked, so the key in use is not the registrable
domain. -/
theorem allowlist_key_not_registrable_domain :
    extract_domain "https://mail.google.com/inbox" = some "mail.google.com" ∧
    registrable_domain "mail.google.com" = some "google.com" ∧
    ("mail.google.com" : String) ≠ "google.com" ∧
    (set_site_exception envBlockAll dst0
        "https://mail.google.com/inbox" "forever" 0).1.allowlist
      = [("mail.google.com", RuleExpiry.Forever)] ∧
    should_block_request envBlockAll stGoogle 0
      "https://ads.com/a.js" "https://mail.google.com/inbox" "script" = true := by
  decide

/-- C5 amended: allowlist keys are the URL's host domain as returned by
the url crate's `domain()` (scheme, port and path stripped; the full
host, not the eTLD+1 registrable domain): `set_site_exception` inserts
under exactly that key, and `should_block_request` looks the initiator
up under the same extraction, so an active entry for that host
suppresses blocking. -/
theorem allowlist_keys_are_host_domains
    (env : Env) (st : ManagerState) (now : Nat) (url d : String)
    (hd : url_domain_model url = some d) :
    (set_site_exception env st url "forever" now).1.allowlist.lookup d
        = some RuleExpiry.Forever ∧
    (∀ u ty, st.allowlist.lookup d = some RuleExpiry.Forever →
      should_block_request env st now u url ty = false) := by
  constructor
  · unfold set_site_exception
    rw [hd]
    simp only [show (("forever" == "1hour") = false) from rfl,
      show (("forever" == "24hours") = false) from rfl,
      show (("forever" == "forever") = true) from rfl]
    unfold add_exception insert_allow
    simp [List.lookup]
  · intro u ty hl
    unfold should_block_request
    rw [allow_hit_of_active hd hl rfl]
    rfl

/-- C5 amended witness: inserting for `https://mail.google.com/inbox`
keys the entry under `mail.google.com`, and with that key active a
request initiated from the same URL is not blocked. -/
theorem allowlist_keys_are_host_domains_witness :
    url_domain_model "https://mail.google.com/inbox" = some "mail.google.com" ∧
    (set_site_exception envBlockAll stMailGoogle
        "https://mail.google.com/inbox" "forever" 0).1.allowlist.lookup
        "mail.google.com" = some RuleExpiry.Forever ∧
    should_block_request envBlockAll stMailGoogle 0
      "https://ads.com/a.js" "https://mail.google.com/inbox" "script" = false :=
  ⟨by decide,
   (allowlist_keys_are_host_domains envBlockAll stMailGoogle 0
      "https://mail.google.com/inbox" "mail.google.com" (by decide)).1,
   (allowlist_keys_are_host_domains envBlockAll stMailGoogle 0
      "https://mail.google.com/inbox" "mail.google.com" (by decide)).2
      "https://ads.com/a.js" "script" rfl⟩

/-- C6 counterexample: the allowlist insert writes the file with a
plain in-place `fs::write` — the emitted operation is not a
temp-file-then-replace — so the claim that every disk write uses a
temp-file-then-replace strategy fails on this concrete run. -/
theorem allowlist_write_not_temp_replace :
    (add_exception envBlockAll dst0 "example.com" none 0).2
      = [FsOp.write "adblock_allowlist.json" ""] ∧
    FsOp.isTempReplace (FsOp.write "adblock_allowlist.json" "") = false := by
  decide

/-- C6 amended: every disk write of the pipeline and of the allowlist
insert/remove is a plain in-place `fs::write`, never a
temp-file-then-replace; insert and remove do synchronously emit exactly
one write, of the serialized full updated table, before returning. -/
theorem disk_writes_plain_and_synchronous
    (env : Env) (st : ManagerState) (d : String) (dur : Option Nat)
    (now : Nat) (fetch : String → Option String) (macos : Bool) :
    (add_exception env st d dur now).2
      = [FsOp.write ALLOWLIST_FILE
          (env.serialize_allowlist (add_exception env st d dur now).1.allowlist)] ∧
    (remove_exception env st d).2
      = [FsOp.write ALLOWLIST_FILE
          (env.serialize_allowlist (remove_exception env st d).1.allowlist)] ∧
    ∀ op ∈ (update_rules env fetch st macos).2, op.isTempReplace = false := by
  refine ⟨?_, rfl, ?_⟩
  · cases dur <;> rfl
  · intro op hop
    unfold update_rules at hop
    by_cases h0 : lines_count fetch = 0
    · rw [h0] at hop
      simp at hop
    · simp only [if_neg h0] at hop
      cases macos with
      | false =>
        simp at hop
        rw [hop]
        rfl
      | true =>
        cases hcb : env.into_content_blocking (pipeline_filter_lines fetch) with
        | none =>
          simp [hcb] at hop
          rw [hop]
          rfl
        | some pr =>
          simp [hcb] at hop
          rcases hop with h | h <;> rw [h] <;> rfl

/-- C7: whenever at least one source produced content (the total line
count is nonzero), the engine the pipeline compiles and publishes is
built from the filter set that contains all fetched lines plus the
fixed custom exception rules, and every custom webmail exception rule
is in that filter set — independently of which fetches succeeded. -/
theorem custom_rules_always_compiled
    (env : Env) (fetch : String → Option String) (st : ManagerState)
    (macos : Bool) (h : lines_count fetch ≠ 0) :
    (update_rules env fetch st macos).1.engine
        = env.from_filter_set (pipeline_filter_lines fetch) ∧
    ∀ r ∈ CUSTOM_EXCEPTION_RULES, r ∈ pipeline_filter_lines fetch := by
  constructor
  · unfold update_rules
    simp only [if_neg h]
    cases macos with
    | false => rfl
    | true =>
      cases hcb : env.into_content_blocking (pipeline_filter_lines fetch) with
      | none => rfl
      | some pr => rfl
  · intro r hr
    exact List.mem_append_right _ hr

/-- C7 witness: a run in which only one source line was obtained (the
second fetch failed) still compiles the custom exception rules. -/
theorem custom_rules_always_compiled_witness :
    lines_count (fun u => if u = "https://easylist.to/easylist/easylist.txt"
        then some "||ads.example.com^" else none) ≠ 0 ∧
    ((update_rules envBlockAll
        (fun u => if u = "https://easylist.to/easylist/easylist.txt"
          then some "||ads.example.com^" else none) dst0 false).1.engine
      = envBlockAll.from_filter_set (pipeline_filter_lines
          (fun u => if u = "https://easylist.to/easylist/easylist.txt"
            then some "||ads.example.com^" else none)) ∧
    ∀ r ∈ CUSTOM_EXCEPTION_RULES, r ∈ pipeline_filter_lines
        (fun u => if u = "https://easylist.to/easylist/easylist.txt"
          then some "||ads.example.com^" else none)) :=
  ⟨by decide,
   custom_rules_always_compiled envBlockAll
     (fun u => if u = "https://easylist.to/easylist/easylist.txt"
       then some "||ads.example.com^" else none) dst0 false (by decide)⟩

/-- Lemma: `String.join` distributes over `::`. -/
theorem string_join_cons (x : String) (xs : List String) :
    String.join (x :: xs) = x ++ String.join xs := by
  apply String.ext
  simp [String.data_join]

/-- The CSS-accumulating fold of `get_cosmetic_css` equals the
concatenation of the newline-terminated rendered rules. -/
theorem css_foldl_eq_join (T : String) (l : List String) (init : String) :
    l.foldl (fun acc s => acc ++ s ++ T) init
      = init ++ String.join (l.map (fun s => s ++ T)) := by
  induction l generalizing init with
  | nil => simp [String.join]
  | cons a t ih =>
    simp only [List.foldl, List.map, ih, string_join_cons]
    apply String.ext
    simp

/-- C8 counterexample: on a non-exempt page with one hide selector the
returned CSS carries a trailing newline after the last rule, so it is
not the rendered rules joined by newlines (which has no trailing
newline); the claim's rendering is off by exactly that terminator. -/
theorem cosmetic_css_not_newline_joined :
    is_exception dst0 0 "https://site.org/" = false ∧
    is_webmail_domain "https://site.org/" = false ∧
    get_cosmetic_css dst0 0 "https://site.org/"
        = "div \x7b display: none !important; \x7d\n" ∧
    get_cosmetic_css dst0 0 "https://site.org/"
      ≠ String.intercalate "\n" ((dst0.engine.hide_selectors "https://site.org/").map
          (fun s => s ++ " \x7b display: none !important; \x7d")) := by
  decide

/-- C8 amended: `get_cosmetic_css` returns the empty string when the
page's domain has an active allowlist entry or is a webmail domain;
otherwise it returns the engine snapshot's hide selectors each rendered
as a `display: none !important` rule terminated by a newline (including
after the last rule), concatenated.  In the embedding the function is
pure: it reads the state and returns a string without modifying
anything. -/
theorem cosmetic_css_cases (st : ManagerState) (now : Nat) (url : String) :
    (∀ d e, extract_domain url = some d → st.allowlist.lookup d = some e →
      active_at now e = true → get_cosmetic_css st now url = "") ∧
    (is_webmail_domain url = true → get_cosmetic_css st now url = "") ∧
    (is_exception st now url = false → is_webmail_domain url = false →
      get_cosmetic_css st now url
        = String.join ((st.engine.hide_selectors url).map
            (fun s => s ++ " \x7b display: none !important; \x7d\n"))) := by
  refine ⟨?_, ?_, ?_⟩
  · intro d e hd hl ha
    unfold get_cosmetic_css is_exception
    rw [allow_hit_of_active hd hl ha]
    rfl
  · intro hw
    unfold get_cosmetic_css
    rw [hw]
    cases is_exception st now url <;> rfl
  · intro he hw
    unfold get_cosmetic_css
    rw [he, hw]
    simp only [Bool.or_self, Bool.false_eq_true, if_false]
    rw [css_foldl_eq_join]
    apply String.ext
    simp

/-- C8 witness: the three cases at concrete inputs — an allowlisted
page, a webmail page, and a plain page with one hide selector. -/
theorem cosmetic_css_cases_witness :
    get_cosmetic_css stNews 3 "https://news.example/" = "" ∧
    get_cosmetic_css stNews 3 "https://mail.google.com/" = "" ∧
    get_cosmetic_css stNews 3 "https://site.org/"
      = String.join ((stNews.engine.hide_selectors "https://site.org/").map
          (fun s => s ++ " \x7b display: none !important; \x7d\n")) :=
  ⟨(cosmetic_css_cases stNews 3 "https://news.example/").1
     "news.example" (RuleExpiry.Until 10) (by decide) rfl (by decide),
   (cosmetic_css_cases stNews 3 "https://mail.google.com/").2.1 (by decide),
   (cosmetic_css_cases stNews 3 "https://site.org/").2.2 (by decide) (by decide)⟩

/-- C9: on the declarative platform, whenever compilation ran (nonzero
lines, successful conversion) the published Safari document is the
converted base rules followed by the synthesized exception rules, and
for every whitelisted domain there is a synthesized `allow`-action rule
whose trigger carries the anchored pattern
`^https?://([^/]*\.)?domain(/|$)` for that domain and an `if-domain`
list naming `*mail.google.com` and `*gmail.com` (the platform's
include-subdomains spelling of mail.google.com/gmail.com). -/
theorem safari_exceptions_synthesized
    (env : Env) (fetch : String → Option String) (st : ManagerState)
    (rules : List SafariRule) (skipped : List String)
    (h0 : lines_count fetch ≠ 0)
    (hcb : env.into_content_blocking (pipeline_filter_lines fetch)
      = some (rules, skipped)) :
    (update_rules env fetch st true).1.safari_rules_json
        = env.serialize_rules (rules ++ safari_exception_rules) ∧
    ∀ w ∈ whitelisted_domains, ∃ r ∈ rules ++ safari_exception_rules,
      r.action_type = "allow" ∧ r.url_filter = anchored_url_pattern w ∧
      r.if_domain = some gmail_domains := by
  constructor
  · unfold update_rules
    simp only [if_neg h0, hcb]
    simp
  · intro w hw
    refine ⟨{ url_filter := anchored_url_pattern w,
              if_domain := some gmail_domains,
              action_type := "allow" }, ?_, rfl, rfl, rfl⟩
    exact List.mem_append_right _ (List.mem_map_of_mem _ hw)

/-- C9 witness: a concrete macOS run with one fetched line and a
conversion yielding no base rules still publishes the five synthesized
exception rules, among them the `google.com` rule gated on Gmail. -/
theorem safari_exceptions_synthesized_witness :
    lines_count (fun _ => some "||ads.example.com^") ≠ 0 ∧
    envBlockAll.into_content_blocking
        (pipeline_filter_lines (fun _ => some "||ads.example.com^"))
      = some ([], []) ∧
    ((update_rules envBlockAll (fun _ => some "||ads.example.com^")
        dst0 true).1.safari_rules_json
      = envBlockAll.serialize_rules ([] ++ safari_exception_rules) ∧
    ∀ w ∈ whitelisted_domains, ∃ r ∈ ([] : List SafariRule) ++ safari_exception_rules,
      r.action_type = "allow" ∧ r.url_filter = anchored_url_pattern w ∧
      r.if_domain = some gmail_domains) :=
  ⟨by decide, rfl,
   safari_exceptions_synthesized envBlockAll (fun _ => some "||ads.example.com^")
     dst0 [] [] (by decide) rfl⟩

end SovereignBrowser
